import Mathlib

set_option maxRecDepth 4096

/-!
Verification development for the sftpd-openlist SFTP v3 subsystem server.

The Go sources are shallowly embedded below:
- `sftpd.binp` (the binary printer, `src/binp`) is embedded as `Printer`
  with byte lists; the deferred-length `Len` mechanism is embedded exactly
  (offset list + patch on `lenDone`).
- The binary parser of the `binp` package is not among the provided source
  files (only its callers are); it is modelled from the spec, see `PSt`.
- `src/file.go` and `src/handle.go` give `Attr`, the mode conversions,
  `handles`, `BufferedReader`.
- the request dispatcher `ServeChannel` (`src/unnamed/part_000`) is embedded
  one loop iteration at a time as `stepChannel`: the framing layer (packet
  header read, body peek, discard) is abstracted away, a step receives the
  opcode byte and the body bytes.  The loop-top `writeErr` that serializes a
  non-fatal error produced by the previous iteration is folded into the step
  that produced the error (it happens before the next request is processed,
  with the same `id`, so the observable response sequence is unchanged).

Go machine integers are embedded as `Nat` (unsigned) or `Int` (signed) with
explicit reductions modulo 2^w where the Go code can overflow.  Go strings
are embedded as byte lists (`HStr`).  `time.Time` values are embedded by
their Unix seconds (the codec only ever serializes whole seconds).
-/

/-- Bytes on the wire: natural numbers (always < 256 when produced). -/
abbrev HStr := List Nat

/-- Big-endian 4-byte encoding, as produced by `binary.BigEndian.PutUint32`
and `binp.Printer.B32` (the argument is a Go `uint32`, hence the value
written is the argument mod 2^32). -/
def be32 (n : Nat) : List Nat :=
  [n / 2 ^ 24 % 256, n / 2 ^ 16 % 256, n / 2 ^ 8 % 256, n % 256]

/-- Big-endian 8-byte encoding (`binp.Printer.B64`). -/
def be64 (n : Nat) : List Nat :=
  [n / 2 ^ 56 % 256, n / 2 ^ 48 % 256, n / 2 ^ 40 % 256, n / 2 ^ 32 % 256,
   n / 2 ^ 24 % 256, n / 2 ^ 16 % 256, n / 2 ^ 8 % 256, n % 256]

/-- Big-endian 32-bit read of four bytes. -/
def rd32 (a b c d : Nat) : Nat := ((a * 256 + b) * 256 + c) * 256 + d

/-- Big-endian 64-bit read of eight bytes. -/
def rd64 (a b c d e f g h : Nat) : Nat :=
  ((((((a * 256 + b) * 256 + c) * 256 + d) * 256 + e) * 256 + f) * 256 + g) * 256 + h

/-- Go `uint32(x)` applied to an `int64`: the low 32 bits. -/
def u32ofInt (x : Int) : Nat := (x % 2 ^ 32).toNat

/-- Go `int64(x)` applied to a `uint64` value given as a `Nat`. -/
def toInt64 (n : Nat) : Int := if n < 2 ^ 63 then (n : Int) else (n : Int) - 2 ^ 64

/-- Go `int64` addition with wraparound (two's complement). -/
def wrap64 (x : Int) : Int := (x + 2 ^ 63) % 2 ^ 64 - 2 ^ 63

/-!  ## The binary parser

Modelled from the spec: the `binp` parser source file is not among the
provided sources (only the printer half of the package is).  Per spec §4.A it
is "a parser consuming bytes left-to-right with fluent accumulation of
errors"; reads are big-endian; length-prefixed strings use a 4-byte length
and no trailing null; the terminal `End` check "fails if the body was not
fully consumed".  We represent a live parser by the list of bytes not yet
consumed, and a failed parser by `none` (the Go code uses a nil parser
pointer for failure: `parseAttr` returns nil on an oversized extended count).
-/

/-- Parser state: the remaining input. -/
abbrev PSt := List Nat

/-- Modelled from the spec: `binp.Parser.B32`, a big-endian 32-bit read. -/
def pB32 : PSt → Option (Nat × PSt)
  | a :: b :: c :: d :: rest => some (rd32 a b c d, rest)
  | _ => none

/-- Modelled from the spec: `binp.Parser.B64`, a big-endian 64-bit read. -/
def pB64 : PSt → Option (Nat × PSt)
  | a :: b :: c :: d :: e :: f :: g :: h :: rest => some (rd64 a b c d e f g h, rest)
  | _ => none

/-- Modelled from the spec: `binp.Parser.B32String`, a 4-byte big-endian
length followed by that many raw bytes. -/
def pB32String (p : PSt) : Option (HStr × PSt) := do
  let (n, rest) ← pB32 p
  if n ≤ rest.length then some (rest.take n, rest.drop n) else none

/-- Modelled from the spec: `binp.Parser.End`, succeeding iff the body was
fully consumed. -/
def pEnd (p : PSt) : Option Unit := if p = [] then some () else none

/-!  ## The binary printer (`src/binp`) -/

/-- `binp.Printer`: a growable output buffer. -/
structure Printer where
  w : List Nat

/-- `binp.Out()`. -/
def pOut : Printer := ⟨[]⟩

/-- `binp.Printer.Byte` (also `B8`). -/
def Printer.byte (p : Printer) (d : Nat) : Printer := ⟨p.w ++ [d % 256]⟩

/-- `binp.Printer.B32`: 4 big-endian bytes of a `uint32`. -/
def Printer.b32 (p : Printer) (d : Nat) : Printer := ⟨p.w ++ be32 d⟩

/-- `binp.Printer.B64`: 8 big-endian bytes of a `uint64`. -/
def Printer.b64 (p : Printer) (d : Nat) : Printer := ⟨p.w ++ be64 d⟩

/-- `binp.Printer.String` / `Bytes`: raw bytes, no length prefix. -/
def Printer.bytes (p : Printer) (d : List Nat) : Printer := ⟨p.w ++ d⟩

/-- `binp.Printer.B32String`: 4-byte big-endian length prefix, then the raw
bytes (`p.B32(uint32(len(d))).String(d)`). -/
def Printer.b32String (p : Printer) (d : HStr) : Printer := (p.b32 d.length).bytes d

/-- `binp.Len`: deferred-length bookkeeping, a list of (offset, size) slots
plus the region start. -/
structure PLen where
  ls : List (Nat × Nat)
  start : Nat

/-- The zero value of `binp.Len` (`var l binp.Len`). -/
def PLen.zero : PLen := ⟨[], 0⟩

/-- `binp.Printer.LenB32`: reserve a 4-byte length slot at the current
offset. -/
def Printer.lenB32 (p : Printer) (l : PLen) : Printer × PLen :=
  (p.b32 0, ⟨l.ls ++ [(p.w.length, 4)], l.start⟩)

/-- `binp.Printer.LenStart`: mark the start of the measured region. -/
def Printer.lenStart (p : Printer) (l : PLen) : PLen := ⟨l.ls, p.w.length⟩

/-- Patch 4 bytes at `off` with the big-endian encoding of `v`
(`binary.BigEndian.PutUint32(p.w[off:], v)`). -/
def patchBE32 (w : List Nat) (off v : Nat) : List Nat :=
  w.take off ++ be32 v ++ w.drop (off + 4)

/-- `binp.Printer.LenDone`: fill every reserved slot with the byte count
from the region start to the current offset. -/
def Printer.lenDone (p : Printer) (l : PLen) : Printer :=
  ⟨l.ls.foldl (fun w s => if s.2 = 4 then patchBE32 w s.1 (p.w.length - l.start) else w) p.w⟩

/-!  ## `Attr` and the file-mode conversions (`src/file.go`) -/

/-- The SFTP attribute flag bits.  Modelled from the spec: the constants file
of the repository is not among the provided sources; these are the standard
SFTP v3 values ("bit positions given by the protocol", spec §4.B). -/
def ssh_FILEXFER_ATTR_SIZE : Nat := 1

def ssh_FILEXFER_ATTR_UIDGID : Nat := 2

def ssh_FILEXFER_ATTR_PERMISSIONS : Nat := 4

def ssh_FILEXFER_ATTR_ACMODTIME : Nat := 8

def ssh_FILEXFER_ATTR_EXTENDED : Nat := 2 ^ 31

/-- Go `os.ModeDir` (bit 31 of `os.FileMode`). -/
def goModeDir : Nat := 2 ^ 31

/-- Go `os.ModeType` = `ModeDir | ModeSymlink | ModeNamedPipe | ModeSocket |
ModeDevice | ModeCharDevice | ModeIrregular` = 0x8F280000. -/
def goModeType : Nat := 0x8F280000

/-- Unix seconds of the zero `time.Time` (January 1, year 1 UTC). -/
def goZeroTimeUnix : Int := -62135596800

/-- `sftpd.Attr` (`src/file.go`).  `Mode` is a Go `os.FileMode` (`uint32`);
`ATime`/`MTime` are `time.Time` values embedded by their Unix seconds;
`Extended` is the flattened key/value string sequence. -/
structure Attr where
  Flags : Nat
  Size : Nat
  Uid : Nat
  Gid : Nat
  User : HStr
  Group : HStr
  Mode : Nat
  ATime : Int
  MTime : Int
  Extended : List HStr
deriving DecidableEq

/-- The zero value `var a Attr` of the Go struct. -/
def Attr.zero : Attr :=
  ⟨0, 0, 0, 0, [], [], 0, goZeroTimeUnix, goZeroTimeUnix, []⟩

/-- `fileModeToSftp` (`src/file.go`): permission bits, plus the wire type
bits for directory / regular. -/
def fileModeToSftp (m : Nat) : Nat :=
  let raw := m &&& 0o777
  if m &&& goModeDir ≠ 0 then raw ||| 0o40000
  else if m &&& goModeType = 0 then raw ||| 0o100000
  else raw

/-- `sftpToFileMode` (`src/file.go`). -/
def sftpToFileMode (raw : Nat) : Nat :=
  let m := raw &&& 0o777
  if raw &&& 0o40000 ≠ 0 then m ||| goModeDir else m

/-!  ## Protocol constants

Modelled from the spec: the repository's constants file is not among the
provided sources; these are the standard SFTP v3 opcode and status values
(spec §6.1, §8 scenario 1 pins INIT=1, VERSION=2). -/

def ssh_FXP_INIT : Nat := 1

def ssh_FXP_VERSION : Nat := 2

def ssh_FXP_OPEN : Nat := 3

def ssh_FXP_CLOSE : Nat := 4

def ssh_FXP_READ : Nat := 5

def ssh_FXP_WRITE : Nat := 6

def ssh_FXP_LSTAT : Nat := 7

def ssh_FXP_FSTAT : Nat := 8

def ssh_FXP_SETSTAT : Nat := 9

def ssh_FXP_FSETSTAT : Nat := 10

def ssh_FXP_OPENDIR : Nat := 11

def ssh_FXP_READDIR : Nat := 12

def ssh_FXP_REMOVE : Nat := 13

def ssh_FXP_MKDIR : Nat := 14

def ssh_FXP_RMDIR : Nat := 15

def ssh_FXP_REALPATH : Nat := 16

def ssh_FXP_STAT : Nat := 17

def ssh_FXP_RENAME : Nat := 18

def ssh_FXP_READLINK : Nat := 19

def ssh_FXP_SYMLINK : Nat := 20

def ssh_FXP_STATUS : Nat := 101

def ssh_FXP_HANDLE : Nat := 102

def ssh_FXP_DATA : Nat := 103

def ssh_FXP_NAME : Nat := 104

def ssh_FXP_ATTRS : Nat := 105

def ssh_FX_OK : Nat := 0

def ssh_FX_EOF : Nat := 1

def ssh_FX_NO_SUCH_FILE : Nat := 2

def ssh_FX_PERMISSION_DENIED : Nat := 3

def ssh_FX_FAILURE : Nat := 4

def ssh_FX_OP_UNSUPPORTED : Nat := 8

/-!  ## The attribute codec (`parseAttr` / `writeAttr`, `src/unnamed/part_000`) -/

/-- `inTimes`: two 32-bit seconds values, stored as `time.Unix(int64(v), 0)`. -/
def inTimes (p : PSt) (a : Attr) : Option (PSt × Attr) := do
  let (at_, p) ← pB32 p
  let (mt, p) ← pB32 p
  pure (p, { a with ATime := (at_ : Int), MTime := (mt : Int) })

/-- `outTimes`: `B32(uint32(a.ATime.Unix())).B32(uint32(a.MTime.Unix()))`. -/
def outTimes (o : Printer) (a : Attr) : Printer :=
  (o.b32 (u32ofInt a.ATime)).b32 (u32ofInt a.MTime)

/-- The extended-pairs read loop of `parseAttr`: `count` pairs of
length-prefixed strings, flattened. -/
def readExtPairs : Nat → PSt → Option (List HStr × PSt)
  | 0, p => some ([], p)
  | n + 1, p => do
    let (k, p) ← pB32String p
    let (v, p) ← pB32String p
    let (rest, p) ← readExtPairs n p
    pure (k :: v :: rest, p)

/-- The size field block of `parseAttr`. -/
def parseAttrSize (flags : Nat) (pa : PSt × Attr) : Option (PSt × Attr) :=
  if flags &&& ssh_FILEXFER_ATTR_SIZE ≠ 0 then do
    let (sz, p) ← pB64 pa.1
    pure (p, { pa.2 with Size := sz })
  else pure pa

/-- The uid/gid field block of `parseAttr`. -/
def parseAttrUidGid (flags : Nat) (pa : PSt × Attr) : Option (PSt × Attr) :=
  if flags &&& ssh_FILEXFER_ATTR_UIDGID ≠ 0 then do
    let (uid, p) ← pB32 pa.1
    let (gid, p) ← pB32 p
    pure (p, { pa.2 with Uid := uid, Gid := gid })
  else pure pa

/-- The permissions field block of `parseAttr` (wire mode mapped through
`sftpToFileMode`). -/
def parseAttrMode (flags : Nat) (pa : PSt × Attr) : Option (PSt × Attr) :=
  if flags &&& ssh_FILEXFER_ATTR_PERMISSIONS ≠ 0 then do
    let (mode, p) ← pB32 pa.1
    pure (p, { pa.2 with Mode := sftpToFileMode mode })
  else pure pa

/-- The atime/mtime field block of `parseAttr`. -/
def parseAttrTimes (flags : Nat) (pa : PSt × Attr) : Option (PSt × Attr) :=
  if flags &&& ssh_FILEXFER_ATTR_ACMODTIME ≠ 0 then inTimes pa.1 pa.2
  else pure pa

/-- The extended field block of `parseAttr`: a 32-bit count (failing above
0xFF — the Go function returns a nil parser), then `count` key/value pairs. -/
def parseAttrExt (flags : Nat) (pa : PSt × Attr) : Option (PSt × Attr) :=
  if flags &&& ssh_FILEXFER_ATTR_EXTENDED ≠ 0 then do
    let (count, p) ← pB32 pa.1
    if count > 0xFF then none
    else do
      let (ss, p) ← readExtPairs count p
      pure (p, { pa.2 with Extended := ss })
  else pure pa

/-- `parseAttr` (`src/unnamed/part_000`): read the flags word, then each
field whose flag bit is set, in the fixed order. -/
def parseAttr (p : PSt) (a : Attr) : Option (PSt × Attr) := do
  let (flags, p) ← pB32 p
  let pa ← parseAttrSize flags (p, { a with Flags := flags })
  let pa ← parseAttrUidGid flags pa
  let pa ← parseAttrMode flags pa
  let pa ← parseAttrTimes flags pa
  parseAttrExt flags pa

/-- The size field block of `writeAttr`. -/
def writeAttrSize (o : Printer) (a : Attr) : Printer :=
  if a.Flags &&& ssh_FILEXFER_ATTR_SIZE ≠ 0 then o.b64 a.Size else o

/-- The uid/gid field block of `writeAttr`. -/
def writeAttrUidGid (o : Printer) (a : Attr) : Printer :=
  if a.Flags &&& ssh_FILEXFER_ATTR_UIDGID ≠ 0 then (o.b32 a.Uid).b32 a.Gid else o

/-- The permissions field block of `writeAttr` (`fileModeToSftp` applied). -/
def writeAttrMode (o : Printer) (a : Attr) : Printer :=
  if a.Flags &&& ssh_FILEXFER_ATTR_PERMISSIONS ≠ 0 then o.b32 (fileModeToSftp a.Mode) else o

/-- The atime/mtime field block of `writeAttr`. -/
def writeAttrTimes (o : Printer) (a : Attr) : Printer :=
  if a.Flags &&& ssh_FILEXFER_ATTR_ACMODTIME ≠ 0 then outTimes o a else o

/-- The extended field block of `writeAttr`: the count written is
`uint32(len(a.Extended)/2)`, then every string of the flattened sequence. -/
def writeAttrExt (o : Printer) (a : Attr) : Printer :=
  if a.Flags &&& ssh_FILEXFER_ATTR_EXTENDED ≠ 0 then
    a.Extended.foldl (fun o s => o.b32String s) (o.b32 (a.Extended.length / 2))
  else o

/-- The field part of `writeAttr` (`src/unnamed/part_000`): the flags word
followed by each field whose flag bit is set, in the fixed order. -/
def writeAttrFields (o : Printer) (a : Attr) : Printer :=
  writeAttrExt (writeAttrTimes (writeAttrMode (writeAttrUidGid (writeAttrSize
    (o.b32 a.Flags) a) a) a) a) a

/-- The attribute block of `writeAttr` on its own (flags + declared fields):
the body encoding that `parseAttr` is the reader for. -/
def attrBlock (a : Attr) : List Nat := (writeAttrFields pOut a).w

/-- `writeAttr` (`src/unnamed/part_000`), success path: the full ATTRS
response packet. -/
def writeAttrBytes (id : Nat) (a : Attr) : List Nat :=
  let (o, l) := pOut.lenB32 PLen.zero
  let l := o.lenStart l
  let o := writeAttrFields ((o.byte ssh_FXP_ATTRS).b32 id) a
  (o.lenDone l).w

/-!  ## Attribute round-trip (claim C4) -/

/-- The byte image of the flattened extended strings. -/
def extBytes (ss : List HStr) : List Nat := (ss.map (fun s => be32 s.length ++ s)).flatten

/-- The projection of an `Attr` onto its declared fields, following the
spec's words for claim C4: fields whose flag bit is set keep their value,
the rest are the zero value of the Go struct. -/
def attrProj (a : Attr) : Attr :=
  { Flags := a.Flags
    Size := if a.Flags &&& ssh_FILEXFER_ATTR_SIZE ≠ 0 then a.Size else 0
    Uid := if a.Flags &&& ssh_FILEXFER_ATTR_UIDGID ≠ 0 then a.Uid else 0
    Gid := if a.Flags &&& ssh_FILEXFER_ATTR_UIDGID ≠ 0 then a.Gid else 0
    User := []
    Group := []
    Mode := if a.Flags &&& ssh_FILEXFER_ATTR_PERMISSIONS ≠ 0 then a.Mode else 0
    ATime := if a.Flags &&& ssh_FILEXFER_ATTR_ACMODTIME ≠ 0 then a.ATime else goZeroTimeUnix
    MTime := if a.Flags &&& ssh_FILEXFER_ATTR_ACMODTIME ≠ 0 then a.MTime else goZeroTimeUnix
    Extended := if a.Flags &&& ssh_FILEXFER_ATTR_EXTENDED ≠ 0 then a.Extended else [] }

/-- A concrete attribute with only the times flag set and an access time one
second before the epoch (a representable pre-1970 `time.Time`). -/
def cxAttr : Attr := { Attr.zero with Flags := 8, ATime := -1, MTime := 0 }

/-- A concrete well-formed attribute exercising every flag bit. -/
def wfAttr : Attr :=
  { Flags := 2 ^ 31 + 15, Size := 42, Uid := 1, Gid := 2, User := [], Group := [],
    Mode := 0o755 + 2 ^ 31, ATime := 100, MTime := 200, Extended := [[107], [118]] }

/-!  ## Errors

Go `error` values as the dispatcher observes them: the distinguished
sentinels (`io.EOF`, `errTooManyFiles`, `errInvalidHandle`), the two error
classes tested by `os.IsPermission` / `os.IsNotExist`, and everything else.
-/

inductive GoError where
  | ioEOF
  | errPermission
  | errNotExist
  | tooManyFiles
  | invalidHandle
  | generic
deriving DecidableEq

/-- `os.IsPermission`. -/
def isPermission : GoError → Bool
  | .errPermission => true
  | _ => false

/-- `os.IsNotExist`. -/
def isNotExist : GoError → Bool
  | .errNotExist => true
  | _ => false

/-!  ## The handle table (`src/handle.go`) -/

/-- `sftpd.FileOpenArgs`. -/
structure FileOpenArgs where
  name : HStr
  flags : Nat
  attr : Attr
deriving DecidableEq

/-- One base-16 ASCII digit (lower case), as `strconv.FormatInt(_, 16)`
renders it. -/
def hexDigit (n : Nat) : Nat := if n < 10 then 48 + n else 87 + n

/-- Base-16 ASCII rendering of a natural number (`strconv.FormatInt` for
nonnegative input). -/
def hexNat (n : Nat) : List Nat :=
  if n < 16 then [hexDigit n]
  else hexNat (n / 16) ++ [hexDigit (n % 16)]
termination_by n
decreasing_by omega

/-- `strconv.FormatInt(c, 16)` on an `int64`. -/
def formatInt16 (c : Int) : HStr :=
  if c < 0 then 45 :: hexNat (-c).toNat else hexNat c.toNat

/-- Value of a base-16 ASCII digit. -/
def hexVal (d : Nat) : Nat := if d < 58 then d - 48 else d - 87

/-- Inverse reading of `hexNat`. -/
def unhex (ds : HStr) : Nat := ds.foldl (fun a d => 16 * a + hexVal d) 0

/-- Association-list lookup (Go map read returning a pointer/zero pair). -/
def lookupA {α : Type} : List (HStr × α) → HStr → Option α
  | [], _ => none
  | (k', v) :: tl, k => if k' = k then some v else lookupA tl k

/-- Association-list insert (Go `m[k] = v`). -/
def insertA {α : Type} : List (HStr × α) → HStr → α → List (HStr × α)
  | [], k, v => [(k, v)]
  | (k', v') :: tl, k, v => if k' = k then (k, v) :: tl else (k', v') :: insertA tl k v

/-- Association-list delete (Go `delete(m, k)`). -/
def eraseA {α : Type} : List (HStr × α) → HStr → List (HStr × α)
  | [], _ => []
  | (k', v') :: tl, k => if k' = k then eraseA tl k else (k', v') :: eraseA tl k

/-- The stream behaviour of a backend file handle: `Read` takes a request
size and yields the bytes actually delivered (Go fills a prefix of the
buffer), `Seek` (whence = start) yields the resulting offset. -/
structure StreamOps (σ : Type) where
  read : σ → Nat → σ × List Nat × Option GoError
  seek : σ → Int → σ × Int × Option GoError

/-- `sftpd.BufferedReader` (`src/handle.go`): a stream-plus-cursor adapter. -/
structure BufferedReader (σ : Type) where
  s : σ
  cur : Int

/-- `sftpd.AutoSeekWriter` (`src/handle.go`). -/
structure AutoSeekWriter (σ : Type) where
  s : σ
  cur : Int

/-- The read loop of `BufferedReader.ReadAt`: read into the unfilled part of
the buffer, accumulate, stop on error or once the buffer is full.  The Go
loop is unbounded; the model carries fuel, which never runs out when every
read delivers a byte or an error (see `readLoop_err_none`). -/
def readLoop {σ : Type} (ops : StreamOps σ) :
    Nat → σ → Nat → List Nat → σ × List Nat × Option GoError
  | 0, s, _, acc => (s, acc, none)
  | fuel + 1, s, L, acc =>
    let r := ops.read s (L - acc.length)
    let acc' := acc ++ r.2.1
    if r.2.2.isSome ∨ L ≤ acc'.length then (r.1, acc', r.2.2)
    else readLoop ops fuel r.1 L acc'

/-- `BufferedReader.ReadAt` (`src/handle.go`): seek when the requested
offset is not the cursor (returning `(0, err)` with the cursor unchanged on
seek failure, otherwise adopting the seek result as cursor), then read until
the buffer of length `L` is full or an error occurs, and advance the cursor
by the bytes read. -/
def BufferedReader.readAt {σ : Type} (ops : StreamOps σ) (b : BufferedReader σ)
    (L : Nat) (off : Int) : BufferedReader σ × List Nat × Option GoError :=
  if off ≠ b.cur then
    match ops.seek b.s off with
    | (s', _, some err) => (⟨s', b.cur⟩, [], some err)
    | (s', o, none) =>
      let res := readLoop ops (L + 1) s' L []
      (⟨res.1, o + res.2.1.length⟩, res.2.1, res.2.2)
  else
    let res := readLoop ops (L + 1) b.s L []
    (⟨res.1, b.cur + res.2.1.length⟩, res.2.1, res.2.2)

/-- `sftpd.handles` (`src/handle.go`): the five keyed collections and the
`int64` counter.  `σ` is the backend stream state, `δ` the backend directory
reader state. -/
structure Handles (σ δ : Type) where
  f : List (HStr × FileOpenArgs)
  d : List (HStr × HStr)
  fw : List (HStr × AutoSeekWriter σ)
  fr : List (HStr × BufferedReader σ)
  dr : List (HStr × δ)
  c : Int

/-- `handles.init` on the zero value (`var h handles; h.init()`). -/
def Handles.init (σ δ : Type) : Handles σ δ := ⟨[], [], [], [], [], 0⟩

/-- `handles.closeHandle`: dispatch on the first character; 'f' (102) drops
the open-args entry and the reader/writer adapters, 'd' (100) drops the path
and the directory reader; anything else does nothing.  (Adapter `Close`
errors are swallowed by the Go code.) -/
def Handles.closeHandle {σ δ : Type} (h : Handles σ δ) (k : HStr) : Handles σ δ :=
  match k with
  | [] => h
  | ch :: _ =>
    if ch = 102 then { h with f := eraseA h.f k, fw := eraseA h.fw k, fr := eraseA h.fr k }
    else if ch = 100 then { h with d := eraseA h.d k, dr := eraseA h.dr k }
    else h

/-- `handles.nfiles`. -/
def Handles.nfiles {σ δ : Type} (h : Handles σ δ) : Nat := h.f.length

/-- `handles.newFile`: increment the counter, key `"f" + hex(counter)`. -/
def Handles.newFile {σ δ : Type} (h : Handles σ δ) (fa : FileOpenArgs) :
    Handles σ δ × HStr :=
  let c' := wrap64 (h.c + 1)
  let k := 102 :: formatInt16 c'
  ({ h with c := c', f := insertA h.f k fa }, k)

/-- `handles.newDir`: increment the counter, key `"d" + hex(counter)`. -/
def Handles.newDir {σ δ : Type} (h : Handles σ δ) (p : HStr) : Handles σ δ × HStr :=
  let c' := wrap64 (h.c + 1)
  let k := 100 :: formatInt16 c'
  ({ h with c := c', d := insertA h.d k p }, k)

/-- `handles.getFile` (nil pointer for a missing key). -/
def Handles.getFile {σ δ : Type} (h : Handles σ δ) (n : HStr) : Option FileOpenArgs :=
  lookupA h.f n

/-- `handles.getDir` (the zero string for a missing key). -/
def Handles.getDir {σ δ : Type} (h : Handles σ δ) (n : HStr) : HStr :=
  (lookupA h.d n).getD []

/-!  ## Handle uniqueness across a session (claim C7) -/

/-- A handle-table operation of a session: open a file, open a directory, or
close a handle. -/
inductive HOp where
  | openF (fa : FileOpenArgs)
  | openD (p : HStr)
  | close (k : HStr)

/-- Run a sequence of handle-table operations, collecting every handle
issued by `newFile` / `newDir` in order. -/
def runOps {σ δ : Type} : Handles σ δ → List HOp → Handles σ δ × List HStr
  | h, [] => (h, [])
  | h, .openF fa :: tl =>
    let hk := h.newFile fa
    let r := runOps hk.1 tl
    (r.1, hk.2 :: r.2)
  | h, .openD p :: tl =>
    let hk := h.newDir p
    let r := runOps hk.1 tl
    (r.1, hk.2 :: r.2)
  | h, .close k :: tl => runOps (h.closeHandle k) tl

/-- The kind bytes ('f' = 102 / 'd' = 100) of the allocations in an
operation sequence, in order. -/
def allocKinds : List HOp → List Nat
  | [] => []
  | .openF _ :: tl => 102 :: allocKinds tl
  | .openD _ :: tl => 100 :: allocKinds tl
  | .close _ :: tl => allocKinds tl

/-- The handles a session starting at counter `c` issues for the given kind
bytes: successive counters rendered in hex behind the kind byte. -/
def issuedSpec (c : Int) : List Nat → List HStr
  | [] => []
  | ch :: tl => (ch :: formatInt16 (c + 1)) :: issuedSpec (c + 1) tl

/-- A small concrete operation sequence: two opens, a close, another open. -/
def wOps : List HOp :=
  [HOp.openF ⟨[97], 0, Attr.zero⟩, HOp.openD [98], HOp.close [102, 49],
   HOp.openF ⟨[99], 1, Attr.zero⟩]

/-!  ## The buffered random-access reader (claim C9, and bounds for C5) -/

/-- A concrete stream over a byte list: reads deliver a prefix, an empty
stream reports end-of-stream, seeks succeed and report the requested
offset. -/
def natStream : StreamOps (List Nat) :=
  ⟨fun s k => if s = [] then (s, [], some GoError.ioEOF) else (s.drop k, s.take k, none),
   fun s o => (s, o, none)⟩

/-!  ## Status responses and the error taxonomy (claim C8) -/

/-- `failTmpl` (`src/unnamed/part_000`): the pre-encoded STATUS packet with
code FAILURE, a zero id, a zero-length message and a zero-length language
tag. -/
def failTmpl : List Nat :=
  [0, 0, 0, 1 + 4 + 4 + 4 + 4, ssh_FXP_STATUS, 0, 0, 0, 0, 0, 0, 0, ssh_FX_FAILURE,
   0, 0, 0, 0, 0, 0, 0, 0]

/-- `writeErrCode` (`src/unnamed/part_000`): copy `failTmpl`, patch the id
at offset 5 and the status code byte at offset 12. -/
def writeErrCodeBytes (id code : Nat) : List Nat :=
  (patchBE32 failTmpl 5 id).set 12 (code % 256)

/-- The error-to-status-code switch of `writeErr` (`src/unnamed/part_000`),
in source order: nil, `io.EOF`, `os.IsPermission`, `os.IsNotExist`,
default. -/
def errCode : Option GoError → Nat
  | none => ssh_FX_OK
  | some e =>
    if e = GoError.ioEOF then ssh_FX_EOF
    else if isPermission e then ssh_FX_PERMISSION_DENIED
    else if isNotExist e then ssh_FX_NO_SUCH_FILE
    else ssh_FX_FAILURE

/-- `writeErr` (`src/unnamed/part_000`). -/
def writeErrBytes (id : Nat) (e : Option GoError) : List Nat :=
  writeErrCodeBytes id (errCode e)

/-!  ## The request dispatcher (`ServeChannel`, `src/unnamed/part_000`)

One loop iteration, given the decoded packet header (opcode byte) and the
peeked body bytes.  Responses are collected as byte lists in emission order;
a non-fatal error produced by a case via `continue` is serialized by the
loop top as a STATUS for the current `id` before the next request is read,
so it is folded into the same step.  Backend (`FileSystem` interface) calls
are traced. -/

/-- `maxFiles` (`src/unnamed/part_000`). -/
def maxFiles : Nat := 0x100

/-- `initReply` (`src/unnamed/part_000`): the pre-encoded VERSION 3 packet. -/
def initReplyBytes : List Nat := [0, 0, 0, 5, ssh_FXP_VERSION, 0, 0, 0, 3]

/-- `writeHandle` (`src/unnamed/part_000`). -/
def writeHandleBytes (id : Nat) (handle : HStr) : List Nat :=
  ((((pOut.b32 (9 + handle.length)).byte ssh_FXP_HANDLE).b32 id).b32String handle).w

/-- The DATA response of the READ case (`src/unnamed/part_000`, two channel
writes: the header, then the payload). -/
def writeDataBytes (id : Nat) (payload : List Nat) : List Nat :=
  ((((pOut.b32 (1 + 4 + 4 + payload.length)).byte ssh_FXP_DATA).b32 id).b32
      payload.length).w ++ payload

/-- `writeAttr` (`src/unnamed/part_000`): a STATUS on a stat error, the
ATTRS packet otherwise. -/
def writeAttrOrErr (id : Nat) (res : Attr ⊕ GoError) : List Nat :=
  match res with
  | .inl a => writeAttrBytes id a
  | .inr e => writeErrBytes id (some e)

/-- A traced call to the `FileSystem` backend interface. -/
inductive BackendCall where
  | statCall (name : HStr) (islstat : Bool)
  | openFileCall (name : HStr) (flags : Nat)
  | getHandleCall (name : HStr) (flags : Nat) (offset : Nat)
deriving DecidableEq

/-- The backend (`FileSystem` plus the optional
`FileSystemExtentionFileTransfer` capability), as pure functions.  `σ` is
the stream state of an opened file / transfer handle. -/
structure FSModel (σ δ : Type) where
  ops : StreamOps σ
  openFile : HStr → Nat → Attr → σ ⊕ GoError
  stat : HStr → Bool → Attr ⊕ GoError
  getHandle? : Option (HStr → Nat → Attr → Nat → σ ⊕ GoError)

/-- The dispatcher's loop-carried state: the handle table and the `id`
variable, which survives across iterations. -/
structure ChanState (σ δ : Type) where
  h : Handles σ δ
  lastId : Nat

/-- The outcome of one loop iteration: a fatal error terminating the
channel, or the emitted responses plus the next state.  Opcodes outside the
embedded subset are marked `unmodeled`. -/
inductive StepRes (σ δ : Type) where
  | fatal (e : GoError) (calls : List BackendCall)
  | out (responses : List (List Nat)) (st : ChanState σ δ) (calls : List BackendCall)
  | unmodeled

/-- Body parse of OPEN: `parseAttr(p.B32(&id).B32String(&path).B32(&flags), &a).End()`. -/
def parseOpenReq (bs : List Nat) : Option (Nat × HStr × Nat × Attr) := do
  let (id, p) ← pB32 bs
  let (path, p) ← pB32String p
  let (flags, p) ← pB32 p
  let (p, a) ← parseAttr p Attr.zero
  let _ ← pEnd p
  pure (id, path, flags, a)

/-- Body parse shared by CLOSE / LSTAT / STAT / FSTAT:
`p.B32(&id).B32String(&s).End()`. -/
def parseIdStringReq (bs : List Nat) : Option (Nat × HStr) := do
  let (id, p) ← pB32 bs
  let (s, p) ← pB32String p
  let _ ← pEnd p
  pure (id, s)

/-- Body parse of READ:
`p.B32(&id).B32String(&handle).B64(&offset).B32(&length).End()`. -/
def parseReadReq (bs : List Nat) : Option (Nat × HStr × Nat × Nat) := do
  let (id, p) ← pB32 bs
  let (handle, p) ← pB32String p
  let (offset, p) ← pB64 p
  let (length, p) ← pB32 p
  let _ ← pEnd p
  pure (id, handle, offset, length)

/-- The reader-resolution part of the READ case: an existing adapter for the
handle is used (and its mutated state stored back); otherwise the
`GetHandle` capability, if present, provides a stream at `offset`; otherwise
the file is opened generically and seeked to `offset` when nonzero.  In the
lazy-open branches the adapter is stored in `fr` after its first read.
Returns the updated handle table, the bytes read, the read error, and the
backend calls made. -/
def readResolve {σ δ : Type} (fs : FSModel σ δ) (h : Handles σ δ) (f : FileOpenArgs)
    (handle : HStr) (offset : Nat) (L : Nat) :
    Handles σ δ × List Nat × Option GoError × List BackendCall :=
  match lookupA h.fr handle with
  | some br =>
    let r := br.readAt fs.ops L (toInt64 offset)
    ({ h with fr := insertA h.fr handle r.1 }, r.2.1, r.2.2, [])
  | none =>
    match fs.getHandle? with
    | some gh =>
      match gh f.name f.flags f.attr offset with
      | .inl t =>
        let br : BufferedReader σ := ⟨t, toInt64 offset⟩
        let r := br.readAt fs.ops L (toInt64 offset)
        ({ h with fr := insertA h.fr handle r.1 }, r.2.1, r.2.2,
         [BackendCall.getHandleCall f.name f.flags offset])
      | .inr e => (h, [], some e, [BackendCall.getHandleCall f.name f.flags offset])
    | none =>
      match fs.openFile f.name f.flags f.attr with
      | .inl file =>
        if offset ≠ 0 then
          match fs.ops.seek file (toInt64 offset) with
          | (_, _, some e) => (h, [], some e, [BackendCall.openFileCall f.name f.flags])
          | (file', _, none) =>
            let br : BufferedReader σ := ⟨file', toInt64 offset⟩
            let r := br.readAt fs.ops L (toInt64 offset)
            ({ h with fr := insertA h.fr handle r.1 }, r.2.1, r.2.2,
             [BackendCall.openFileCall f.name f.flags])
        else
          let br : BufferedReader σ := ⟨file, toInt64 offset⟩
          let r := br.readAt fs.ops L (toInt64 offset)
          ({ h with fr := insertA h.fr handle r.1 }, r.2.1, r.2.2,
           [BackendCall.openFileCall f.name f.flags])
      | .inr e => (h, [], some e, [BackendCall.openFileCall f.name f.flags])

/-- The OPEN case. -/
def openStep {σ δ : Type} (st : ChanState σ δ) (body : List Nat) : StepRes σ δ :=
  match parseOpenReq body with
  | none => .fatal .generic []
  | some (id, path, flags, a) =>
    if st.h.nfiles ≥ maxFiles then
      .out [writeErrBytes id (some .tooManyFiles)] { st with lastId := id } []
    else
      let hk := st.h.newFile ⟨path, flags, a⟩
      .out [writeHandleBytes id hk.2] ⟨hk.1, id⟩ []

/-- The CLOSE case. -/
def closeStep {σ δ : Type} (st : ChanState σ δ) (body : List Nat) : StepRes σ δ :=
  match parseIdStringReq body with
  | none => .fatal .generic []
  | some (id, handle) =>
    .out [writeErrBytes id none] ⟨st.h.closeHandle handle, id⟩ []

/-- The READ case: parse, look up the open-args (missing handle is fatal),
clamp the length to 64 KiB, resolve a reader and read, then convert an
end-of-stream that delivered bytes into success; errors become a STATUS for
this id, success becomes a DATA response. -/
def readStep {σ δ : Type} (fs : FSModel σ δ) (st : ChanState σ δ) (body : List Nat) :
    StepRes σ δ :=
  match parseReadReq body with
  | none => .fatal .generic []
  | some (id, handle, offset, length) =>
    match st.h.getFile handle with
    | none => .fatal .invalidHandle []
    | some f =>
      let len2 := if length > 64 * 1024 then 64 * 1024 else length
      let r := readResolve fs st.h f handle offset len2
      let e := if r.2.2.1 = some GoError.ioEOF ∧ r.2.1.length > 0 then none else r.2.2.1
      match e with
      | none => .out [writeDataBytes id r.2.1] ⟨r.1, id⟩ r.2.2.2
      | some e0 => .out [writeErrBytes id (some e0)] ⟨r.1, id⟩ r.2.2.2

/-- The LSTAT / STAT case (`islstat` is `op == ssh_FXP_LSTAT`). -/
def statStep {σ δ : Type} (fs : FSModel σ δ) (st : ChanState σ δ) (op : Nat)
    (body : List Nat) : StepRes σ δ :=
  match parseIdStringReq body with
  | none => .fatal .generic []
  | some (id, path) =>
    .out [writeAttrOrErr id (fs.stat path (decide (op = ssh_FXP_LSTAT)))]
      { st with lastId := id } [BackendCall.statCall path (decide (op = ssh_FXP_LSTAT))]

/-- The FSTAT case: the stored path of the open file is stat'ed with
`islstat = false`. -/
def fstatStep {σ δ : Type} (fs : FSModel σ δ) (st : ChanState σ δ) (body : List Nat) :
    StepRes σ δ :=
  match parseIdStringReq body with
  | none => .fatal .generic []
  | some (id, handle) =>
    match st.h.getFile handle with
    | none => .fatal .invalidHandle []
    | some f =>
      .out [writeAttrOrErr id (fs.stat f.name false)] { st with lastId := id }
        [BackendCall.statCall f.name false]

/-- One iteration of the `ServeChannel` loop over the embedded opcode
subset.  The SYMLINK case mirrors the source exactly: it parses nothing and
answers `writeErrCode(c, id, ssh_FX_OP_UNSUPPORTED)` with the loop-carried
`id` of the previous request. -/
def stepChannel {σ δ : Type} (fs : FSModel σ δ) (st : ChanState σ δ) (op : Nat)
    (body : List Nat) : StepRes σ δ :=
  if op = ssh_FXP_INIT then .out [initReplyBytes] st []
  else if op = ssh_FXP_OPEN then openStep st body
  else if op = ssh_FXP_CLOSE then closeStep st body
  else if op = ssh_FXP_READ then readStep fs st body
  else if op = ssh_FXP_LSTAT ∨ op = ssh_FXP_STAT then statStep fs st op body
  else if op = ssh_FXP_FSTAT then fstatStep fs st body
  else if op = ssh_FXP_SYMLINK then
    .out [writeErrCodeBytes st.lastId ssh_FX_OP_UNSUPPORTED] st []
  else .unmodeled

/-- The 32-bit request/response id field of a packet (offset 5, after the
length word and the opcode byte). -/
def respId (bs : List Nat) : Nat :=
  rd32 (bs.getD 5 0) (bs.getD 6 0) (bs.getD 7 0) (bs.getD 8 0)

/-- A trivial backend over byte-list streams: opens fail, stats report
not-exist, no transfer capability. -/
def unitFS : FSModel (List Nat) Unit :=
  ⟨natStream, fun _ _ _ => Sum.inr GoError.generic, fun _ _ => Sum.inr GoError.errNotExist,
   none⟩

/-- A CLOSE body: id=5, handle "x". -/
def cxCloseBody : List Nat := be32 5 ++ be32 1 ++ [120]

/-- A SYMLINK body: id=9, linkpath "a", targetpath "b". -/
def cxSymBody : List Nat := be32 9 ++ (be32 1 ++ [97]) ++ (be32 1 ++ [98])

/-- A CLOSE body with id=7 and the non-handle string "z". -/
def wCloseBody : List Nat := be32 7 ++ be32 1 ++ [122]

/-- A synthetic handle table holding 256 live file handles. -/
def full256 : Handles (List Nat) Unit :=
  ⟨(List.range 256).map (fun i => ([i], ⟨[], 0, Attr.zero⟩)), [], [], [], [], 0⟩

/-- An OPEN body: id=7, path "/a", flags=1, attribute flags=0. -/
def wOpenBody : List Nat := be32 7 ++ (be32 2 ++ [47, 97]) ++ be32 1 ++ be32 0

/-- A handle table holding the open file "f1" remembering path "a". -/
def fstatStateH : Handles (List Nat) Unit :=
  ⟨[([102, 49], ⟨[97], 0, Attr.zero⟩)], [], [], [], [], 1⟩

/-- An FSTAT body: id=3, handle "f1". -/
def wFstatBody : List Nat := be32 3 ++ be32 2 ++ [102, 49]

/-- A READ body: id=4, handle "f1", offset=0, length=100000 (over 64 KiB). -/
def wReadBody : List Nat := be32 4 ++ (be32 2 ++ [102, 49]) ++ be64 0 ++ be32 100000

/-- A READ body: id=4, handle "f1", offset=0, length=10. -/
def wReadBody2 : List Nat := be32 4 ++ (be32 2 ++ [102, 49]) ++ be64 0 ++ be32 10

/-- A handle table with open file "f1" and a live reader over "abc". -/
def readStateH : Handles (List Nat) Unit :=
  ⟨[([102, 49], ⟨[97], 0, Attr.zero⟩)], [], [], [([102, 49], ⟨[97, 98, 99], 0⟩)], [], 1⟩

/-- `readStateH` after the reader consumed its three bytes. -/
def readStateH2 : Handles (List Nat) Unit :=
  ⟨[([102, 49], ⟨[97], 0, Attr.zero⟩)], [], [], [([102, 49], ⟨[], 3⟩)], [], 1⟩

/-- A handle table with open file "f1" and an exhausted reader. -/
def readStateH0 : Handles (List Nat) Unit :=
  ⟨[([102, 49], ⟨[97], 0, Attr.zero⟩)], [], [], [([102, 49], ⟨[], 0⟩)], [], 1⟩

/-!  ## Theorems -/

theorem rd32_be32 (n : Nat) (h : n < 2 ^ 32) :
    rd32 (n / 2 ^ 24 % 256) (n / 2 ^ 16 % 256) (n / 2 ^ 8 % 256) (n % 256) = n := by
  unfold rd32; omega

theorem rd64_be64 (n : Nat) (h : n < 2 ^ 64) :
    rd64 (n / 2 ^ 56 % 256) (n / 2 ^ 48 % 256) (n / 2 ^ 40 % 256) (n / 2 ^ 32 % 256)
      (n / 2 ^ 24 % 256) (n / 2 ^ 16 % 256) (n / 2 ^ 8 % 256) (n % 256) = n := by
  unfold rd64; omega

theorem rd32_of_be32 (n : Nat) :
    rd32 (n / 2 ^ 24 % 256) (n / 2 ^ 16 % 256) (n / 2 ^ 8 % 256) (n % 256) = n % 2 ^ 32 := by
  unfold rd32; omega

theorem rd64_of_be64 (n : Nat) :
    rd64 (n / 2 ^ 56 % 256) (n / 2 ^ 48 % 256) (n / 2 ^ 40 % 256) (n / 2 ^ 32 % 256)
      (n / 2 ^ 24 % 256) (n / 2 ^ 16 % 256) (n / 2 ^ 8 % 256) (n % 256) = n % 2 ^ 64 := by
  unfold rd64; omega

theorem pB32_append (n : Nat) (rest : PSt) :
    pB32 (be32 n ++ rest) = some (n % 2 ^ 32, rest) := by
  simp only [be32, List.cons_append, List.nil_append, pB32, rd32_of_be32]

theorem pB64_append (n : Nat) (rest : PSt) :
    pB64 (be64 n ++ rest) = some (n % 2 ^ 64, rest) := by
  simp only [be64, List.cons_append, List.nil_append, pB64, rd64_of_be64]

theorem pB32String_append (s : HStr) (rest : PSt) (h : s.length < 2 ^ 32) :
    pB32String (be32 s.length ++ (s ++ rest)) = some (s, rest) := by
  simp only [pB32String, pB32_append, Nat.mod_eq_of_lt h, Option.bind_eq_bind,
    Option.some_bind]
  simp [List.take_append, List.drop_append]

theorem pEnd_nil : pEnd [] = some () := rfl

/-- The standard framing pattern `Out().LenB32(&l).LenStart(&l) … LenDone(&l)`
produces a 4-byte big-endian length of the rest, followed by the rest. -/
theorem lenFrame (body : List Nat) :
    ((Printer.lenB32 pOut PLen.zero).1.bytes body).lenDone
        ((Printer.lenB32 pOut PLen.zero).1.lenStart (Printer.lenB32 pOut PLen.zero).2) =
      ⟨be32 body.length ++ body⟩ := by
  simp [Printer.lenB32, pOut, PLen.zero, Printer.bytes, Printer.lenStart, Printer.lenDone,
    patchBE32, Printer.b32, be32]

theorem writeAttrSize_w (o : Printer) (a : Attr) :
    (writeAttrSize o a).w =
      o.w ++ (if a.Flags &&& ssh_FILEXFER_ATTR_SIZE ≠ 0 then be64 a.Size else []) := by
  unfold writeAttrSize
  split <;> simp [Printer.b64]

theorem writeAttrUidGid_w (o : Printer) (a : Attr) :
    (writeAttrUidGid o a).w =
      o.w ++ (if a.Flags &&& ssh_FILEXFER_ATTR_UIDGID ≠ 0 then be32 a.Uid ++ be32 a.Gid
        else []) := by
  unfold writeAttrUidGid
  split <;> simp [Printer.b32]

theorem writeAttrMode_w (o : Printer) (a : Attr) :
    (writeAttrMode o a).w =
      o.w ++ (if a.Flags &&& ssh_FILEXFER_ATTR_PERMISSIONS ≠ 0 then
        be32 (fileModeToSftp a.Mode) else []) := by
  unfold writeAttrMode
  split <;> simp [Printer.b32]

theorem writeAttrTimes_w (o : Printer) (a : Attr) :
    (writeAttrTimes o a).w =
      o.w ++ (if a.Flags &&& ssh_FILEXFER_ATTR_ACMODTIME ≠ 0 then
        be32 (u32ofInt a.ATime) ++ be32 (u32ofInt a.MTime) else []) := by
  unfold writeAttrTimes outTimes
  split <;> simp [Printer.b32]

theorem foldl_b32String_w (ss : List HStr) (o : Printer) :
    (ss.foldl (fun o s => o.b32String s) o).w = o.w ++ extBytes ss := by
  induction ss generalizing o with
  | nil => simp [extBytes]
  | cons s tl ih => simp [extBytes, ih, Printer.b32String, Printer.b32, Printer.bytes] at *
                    simp [ih, extBytes]

theorem writeAttrExt_w (o : Printer) (a : Attr) :
    (writeAttrExt o a).w =
      o.w ++ (if a.Flags &&& ssh_FILEXFER_ATTR_EXTENDED ≠ 0 then
        be32 (a.Extended.length / 2) ++ extBytes a.Extended else []) := by
  unfold writeAttrExt
  split <;> simp [foldl_b32String_w, Printer.b32]

theorem readExtPairs_append (k : Nat) (ss : List HStr) (rest : PSt)
    (hlen : ss.length = 2 * k) (hs : ∀ s ∈ ss, s.length < 2 ^ 32) :
    readExtPairs k (extBytes ss ++ rest) = some (ss, rest) := by
  induction k generalizing ss rest with
  | zero =>
    match ss, hlen with
    | [], _ => simp [readExtPairs, extBytes]
  | succ n ih =>
    match ss, hlen with
    | s1 :: s2 :: tl, hlen =>
      have h1 : s1.length < 2 ^ 32 := hs s1 (by simp)
      have h2 : s2.length < 2 ^ 32 := hs s2 (by simp)
      have htl : tl.length = 2 * n := by
        simp only [List.length_cons] at hlen
        omega
      simp only [readExtPairs, extBytes, List.map_cons, List.flatten_cons,
        List.append_assoc, pB32String_append _ _ h1, Option.bind_eq_bind, Option.some_bind,
        pB32String_append _ _ h2]
      rw [show ((tl.map (fun s => be32 s.length ++ s)).flatten : List Nat) = extBytes tl
        from rfl]
      rw [ih tl rest htl (fun s hmem => hs s (by simp [hmem]))]
      rfl

theorem parseAttrSize_append (flags : Nat) (a b : Attr) (rest : PSt) :
    parseAttrSize flags
        ((if flags &&& ssh_FILEXFER_ATTR_SIZE ≠ 0 then be64 b.Size else []) ++ rest, a) =
      some (rest,
        if flags &&& ssh_FILEXFER_ATTR_SIZE ≠ 0 then { a with Size := b.Size % 2 ^ 64 }
        else a) := by
  by_cases h : flags &&& ssh_FILEXFER_ATTR_SIZE = 0 <;>
    simp [parseAttrSize, h, pB64_append]

theorem parseAttrUidGid_append (flags : Nat) (a b : Attr) (rest : PSt) :
    parseAttrUidGid flags
        ((if flags &&& ssh_FILEXFER_ATTR_UIDGID ≠ 0 then be32 b.Uid ++ be32 b.Gid else [])
          ++ rest, a) =
      some (rest,
        if flags &&& ssh_FILEXFER_ATTR_UIDGID ≠ 0 then
          { a with Uid := b.Uid % 2 ^ 32, Gid := b.Gid % 2 ^ 32 }
        else a) := by
  by_cases h : flags &&& ssh_FILEXFER_ATTR_UIDGID = 0 <;>
    simp [parseAttrUidGid, h, pB32_append]

theorem parseAttrMode_append (flags : Nat) (a b : Attr) (rest : PSt) :
    parseAttrMode flags
        ((if flags &&& ssh_FILEXFER_ATTR_PERMISSIONS ≠ 0 then be32 (fileModeToSftp b.Mode)
          else []) ++ rest, a) =
      some (rest,
        if flags &&& ssh_FILEXFER_ATTR_PERMISSIONS ≠ 0 then
          { a with Mode := sftpToFileMode (fileModeToSftp b.Mode % 2 ^ 32) }
        else a) := by
  by_cases h : flags &&& ssh_FILEXFER_ATTR_PERMISSIONS = 0 <;>
    simp [parseAttrMode, h, pB32_append]

theorem parseAttrTimes_append (flags : Nat) (a b : Attr) (rest : PSt) :
    parseAttrTimes flags
        ((if flags &&& ssh_FILEXFER_ATTR_ACMODTIME ≠ 0 then
          be32 (u32ofInt b.ATime) ++ be32 (u32ofInt b.MTime) else []) ++ rest, a) =
      some (rest,
        if flags &&& ssh_FILEXFER_ATTR_ACMODTIME ≠ 0 then
          { a with ATime := ((u32ofInt b.ATime % 2 ^ 32 : Nat) : Int),
                   MTime := ((u32ofInt b.MTime % 2 ^ 32 : Nat) : Int) }
        else a) := by
  by_cases h : flags &&& ssh_FILEXFER_ATTR_ACMODTIME = 0 <;>
    simp [parseAttrTimes, inTimes, h, pB32_append]

theorem parseAttrExt_append (flags : Nat) (a b : Attr) (rest : PSt)
    (heven : b.Extended.length % 2 = 0) (hcount : b.Extended.length ≤ 510)
    (hlens : ∀ s ∈ b.Extended, s.length < 2 ^ 32) :
    parseAttrExt flags
        ((if flags &&& ssh_FILEXFER_ATTR_EXTENDED ≠ 0 then
          be32 (b.Extended.length / 2) ++ extBytes b.Extended else []) ++ rest, a) =
      some (rest,
        if flags &&& ssh_FILEXFER_ATTR_EXTENDED ≠ 0 then { a with Extended := b.Extended }
        else a) := by
  have hc32 : b.Extended.length / 2 % 2 ^ 32 = b.Extended.length / 2 :=
    Nat.mod_eq_of_lt (by omega)
  have hnotbig : ¬ b.Extended.length / 2 > 0xFF := by omega
  have hlen2 : b.Extended.length = 2 * (b.Extended.length / 2) := by omega
  by_cases h : flags &&& ssh_FILEXFER_ATTR_EXTENDED = 0
  · simp [parseAttrExt, h]
  · simp only [parseAttrExt, h, if_pos, ne_eq, not_false_iff, if_true, List.append_assoc,
      pB32_append, Option.bind_eq_bind, Option.some_bind, hc32]
    simp only [hnotbig, if_false, ite_false]
    rw [readExtPairs_append (b.Extended.length / 2) b.Extended rest hlen2 hlens]
    rfl

theorem mode_roundtrip_bounded : ∀ p < 512,
    sftpToFileMode (fileModeToSftp p % 2 ^ 32) = p ∧
    sftpToFileMode (fileModeToSftp (p + 2 ^ 31) % 2 ^ 32) = p + 2 ^ 31 := by
  decide

theorem u32ofInt_int_eq (x : Int) (h0 : 0 ≤ x) (h1 : x < 2 ^ 32) :
    ((u32ofInt x % 2 ^ 32 : Nat) : Int) = x := by
  unfold u32ofInt
  omega

/-- C4 (amended): serializing the attribute block of a well-formed `Attr`
whose mode consists of permission bits optionally together with the
directory type bit, whose times are representable as 32-bit Unix seconds,
and whose flattened extended sequence has even length with at most 255
pairs, and then parsing it with `parseAttr`, consumes the block exactly and
yields the projection onto the declared fields: declared fields equal the
original's, undeclared fields are the Go zero values. -/
theorem attr_roundtrip_amended (a : Attr)
    (hflags : a.Flags < 2 ^ 32) (hsize : a.Size < 2 ^ 64)
    (huid : a.Uid < 2 ^ 32) (hgid : a.Gid < 2 ^ 32)
    (hmode : ∃ p d, p < 512 ∧ (d = 0 ∨ d = 1) ∧ a.Mode = p + 2 ^ 31 * d)
    (hat0 : 0 ≤ a.ATime) (hat1 : a.ATime < 2 ^ 32)
    (hmt0 : 0 ≤ a.MTime) (hmt1 : a.MTime < 2 ^ 32)
    (heven : a.Extended.length % 2 = 0) (hcount : a.Extended.length ≤ 510)
    (hlens : ∀ s ∈ a.Extended, s.length < 2 ^ 32) :
    parseAttr (attrBlock a) Attr.zero = some ([], attrProj a) := by
  have hmode_rt : sftpToFileMode (fileModeToSftp a.Mode % 2 ^ 32) = a.Mode := by
    obtain ⟨p, d, hp, hd, heq⟩ := hmode
    rcases hd with hd | hd <;> subst hd <;> rw [heq]
    · simpa using (mode_roundtrip_bounded p hp).1
    · simpa [Nat.mul_one] using (mode_roundtrip_bounded p hp).2
  have hatv := u32ofInt_int_eq a.ATime hat0 hat1
  have hmtv := u32ofInt_int_eq a.MTime hmt0 hmt1
  rw [← List.append_nil (attrBlock a)]
  unfold attrBlock writeAttrFields
  rw [writeAttrExt_w, writeAttrTimes_w, writeAttrMode_w, writeAttrUidGid_w, writeAttrSize_w]
  simp only [Printer.b32, pOut, List.nil_append, List.append_assoc]
  unfold parseAttr
  simp only [pB32_append, Nat.mod_eq_of_lt hflags, Option.bind_eq_bind, Option.some_bind,
    parseAttrSize_append, parseAttrUidGid_append, parseAttrMode_append, parseAttrTimes_append]
  rw [parseAttrExt_append a.Flags _ a [] heven hcount hlens]
  simp only [Nat.mod_eq_of_lt hsize, Nat.mod_eq_of_lt huid, Nat.mod_eq_of_lt hgid,
    hmode_rt, hatv, hmtv, Option.some_bind]
  unfold attrProj Attr.zero
  split_ifs <;> rfl

/-- C4 (counterexample): for `cxAttr`, whose declared field ATime is -1,
serialize-then-parse yields ATime = 4294967295, so the declared fields of
the parse result do not all equal the original's: the round-trip claim is
false for an arbitrary `Attr`. -/
theorem attr_roundtrip_cx :
    parseAttr (attrBlock cxAttr) Attr.zero =
      some ([], { Attr.zero with Flags := 8, ATime := 4294967295, MTime := 0 }) ∧
    (4294967295 : Int) ≠ cxAttr.ATime := by
  constructor
  · rfl
  · decide

theorem attr_roundtrip_amended_witness :
    parseAttr (attrBlock wfAttr) Attr.zero = some ([], attrProj wfAttr) :=
  attr_roundtrip_amended wfAttr (by decide) (by decide) (by decide) (by decide)
    ⟨0o755, 1, by decide, Or.inr rfl, rfl⟩ (by decide) (by decide) (by decide) (by decide)
    (by decide) (by decide) (by decide)

theorem hexVal_hexDigit (n : Nat) (h : n < 16) : hexVal (hexDigit n) = n := by
  unfold hexVal hexDigit
  split_ifs <;> omega

theorem unhex_hexNat (n : Nat) : unhex (hexNat n) = n := by
  induction n using Nat.strong_induction_on with
  | _ n ih =>
    rw [hexNat]
    split
    · next h => simp [unhex, hexVal_hexDigit n h]
    · next h =>
      have hlt : n / 16 < n := by omega
      have := ih (n / 16) hlt
      unfold unhex at *
      rw [List.foldl_append]
      simp only [List.foldl_cons, List.foldl_nil, this, hexVal_hexDigit (n % 16) (by omega)]
      omega

theorem hexNat_inj (a b : Nat) (h : hexNat a = hexNat b) : a = b := by
  have := congrArg unhex h
  rwa [unhex_hexNat, unhex_hexNat] at this

theorem formatInt16_inj (a b : Int) (ha : 0 ≤ a) (hb : 0 ≤ b)
    (h : formatInt16 a = formatInt16 b) : a = b := by
  unfold formatInt16 at h
  rw [if_neg (by omega), if_neg (by omega)] at h
  have := hexNat_inj _ _ h
  omega

theorem wrap64_eq (x : Int) (h0 : -(2 ^ 63) ≤ x) (h1 : x < 2 ^ 63) : wrap64 x = x := by
  unfold wrap64
  omega

theorem closeHandle_c {σ δ : Type} (h : Handles σ δ) (k : HStr) :
    (h.closeHandle k).c = h.c := by
  unfold Handles.closeHandle
  cases k with
  | nil => rfl
  | cons ch tl => dsimp only; split_ifs <;> rfl

theorem runOps_issued {σ δ : Type} (ops : List HOp) (h : Handles σ δ) (hc : 0 ≤ h.c)
    (hb : h.c + (allocKinds ops).length < 2 ^ 63) :
    (runOps h ops).2 = issuedSpec h.c (allocKinds ops) ∧
      (runOps h ops).1.c = h.c + (allocKinds ops).length := by
  induction ops generalizing h with
  | nil => simp [runOps, allocKinds, issuedSpec]
  | cons op tl ih =>
    cases op with
    | openF fa =>
      simp only [allocKinds, List.length_cons] at hb ⊢
      have hw : wrap64 (h.c + 1) = h.c + 1 := wrap64_eq _ (by omega) (by omega)
      have := ih (h.newFile fa).1 (by simp [Handles.newFile, hw]; omega)
        (by simp [Handles.newFile, hw]; omega)
      simp only [runOps, Handles.newFile, hw, issuedSpec] at this ⊢
      refine ⟨by rw [this.1], by rw [this.2]; push_cast; ring⟩
    | openD p =>
      simp only [allocKinds, List.length_cons] at hb ⊢
      have hw : wrap64 (h.c + 1) = h.c + 1 := wrap64_eq _ (by omega) (by omega)
      have := ih (h.newDir p).1 (by simp [Handles.newDir, hw]; omega)
        (by simp [Handles.newDir, hw]; omega)
      simp only [runOps, Handles.newDir, hw, issuedSpec] at this ⊢
      refine ⟨by rw [this.1], by rw [this.2]; push_cast; ring⟩
    | close k =>
      simp only [allocKinds] at hb ⊢
      have := ih (h.closeHandle k) (by rw [closeHandle_c]; exact hc)
        (by rw [closeHandle_c]; exact hb)
      simp only [runOps, closeHandle_c] at this ⊢
      exact this

theorem mem_issuedSpec (c : Int) (ks : List Nat) (x : HStr) (hx : x ∈ issuedSpec c ks) :
    ∃ ch cc, x = ch :: formatInt16 cc ∧ c + 1 ≤ cc := by
  induction ks generalizing c with
  | nil => simp [issuedSpec] at hx
  | cons ch tl ih =>
    simp only [issuedSpec, List.mem_cons] at hx
    rcases hx with hx | hx
    · exact ⟨ch, c + 1, hx, le_refl _⟩
    · obtain ⟨ch', cc, hx, hcc⟩ := ih (c + 1) hx
      exact ⟨ch', cc, hx, by omega⟩

theorem issuedSpec_pairwise (ks : List Nat) (c : Int) (hc : 0 ≤ c) :
    (issuedSpec c ks).Pairwise (fun a b => a ≠ b) := by
  induction ks generalizing c with
  | nil => simp [issuedSpec]
  | cons ch tl ih =>
    simp only [issuedSpec]
    refine List.Pairwise.cons ?_ (ih (c + 1) (by omega))
    intro x hx heq
    obtain ⟨ch', cc, hxeq, hcc⟩ := mem_issuedSpec (c + 1) tl x hx
    rw [hxeq] at heq
    have htail : formatInt16 (c + 1) = formatInt16 cc := (List.cons.injEq _ _ _ _ ▸ heq).2
    have := formatInt16_inj (c + 1) cc (by omega) (by omega) htail
    omega

/-- C7: within one channel, every `newFile` / `newDir` call advances the
shared `int64` counter by one and `closeHandle` never decrements it; the
issued handle is the kind byte 'f' or 'd' followed by the counter rendered
in base-16 ASCII; and over any session issuing fewer than 2^63 handles the
issued handle strings follow strictly increasing counters and are pairwise
distinct — no handle string is reused. -/
theorem handle_allocation_spec (σ δ : Type) (ops : List HOp)
    (hb : ((allocKinds ops).length : Int) < 2 ^ 63) :
    (runOps (Handles.init σ δ) ops).2 = issuedSpec 0 (allocKinds ops) ∧
    ((runOps (Handles.init σ δ) ops).2).Pairwise (fun a b => a ≠ b) ∧
    (runOps (Handles.init σ δ) ops).1.c = (allocKinds ops).length ∧
    (∀ h : Handles σ δ, ∀ fa, (h.newFile fa).1.c = wrap64 (h.c + 1) ∧
      (h.newFile fa).2 = 102 :: formatInt16 (wrap64 (h.c + 1))) ∧
    (∀ h : Handles σ δ, ∀ p, (h.newDir p).1.c = wrap64 (h.c + 1) ∧
      (h.newDir p).2 = 100 :: formatInt16 (wrap64 (h.c + 1))) ∧
    (∀ h : Handles σ δ, ∀ k, (h.closeHandle k).c = h.c) := by
  have hinit : (Handles.init σ δ).c = 0 := rfl
  have hrun := runOps_issued ops (Handles.init σ δ) (by rw [hinit]) (by rw [hinit]; omega)
  refine ⟨by rw [hrun.1, hinit], ?_, by rw [hrun.2, hinit]; ring, ?_, ?_, ?_⟩
  · rw [hrun.1, hinit]
    exact issuedSpec_pairwise _ 0 le_rfl
  · exact fun h fa => ⟨rfl, rfl⟩
  · exact fun h p => ⟨rfl, rfl⟩
  · exact fun h k => closeHandle_c h k

theorem handle_allocation_spec_witness :
    ((runOps (Handles.init Unit Unit) wOps).2).Pairwise (fun a b => a ≠ b) :=
  (handle_allocation_spec Unit Unit wOps (by decide)).2.1

theorem readLoop_len_le {σ : Type} (ops : StreamOps σ)
    (hc : ∀ s k, (ops.read s k).2.1.length ≤ k) :
    ∀ fuel (s : σ) L acc, acc.length ≤ L →
      (readLoop ops fuel s L acc).2.1.length ≤ L := by
  intro fuel
  induction fuel with
  | zero => intro s L acc h; exact h
  | succ n ih =>
    intro s L acc h
    unfold readLoop
    dsimp only
    split
    · simp only [List.length_append]
      have := hc s (L - acc.length)
      omega
    · exact ih _ _ _ (by simp only [List.length_append]; have := hc s (L - acc.length); omega)

theorem readLoop_err_none {σ : Type} (ops : StreamOps σ)
    (hc : ∀ s k, (ops.read s k).2.1.length ≤ k)
    (hp : ∀ s k, 1 ≤ k → 1 ≤ (ops.read s k).2.1.length ∨ (ops.read s k).2.2 ≠ none) :
    ∀ fuel (s : σ) L acc, acc.length ≤ L → L + 1 ≤ fuel + acc.length →
      (readLoop ops fuel s L acc).2.2 = none →
      (readLoop ops fuel s L acc).2.1.length = L := by
  intro fuel
  induction fuel with
  | zero => intro s L acc h hf _; omega
  | succ n ih =>
    intro s L acc h hf
    unfold readLoop
    dsimp only
    split
    · next hexit =>
      intro herr
      rw [herr] at hexit
      simp only [Option.isSome_none, Bool.false_eq_true, false_or] at hexit
      have := hc s (L - acc.length)
      simp only [List.length_append]
      simp only [List.length_append] at hexit
      omega
    · next hcont =>
      intro herr
      have hck := hc s (L - acc.length)
      have hlen : (acc ++ (ops.read s (L - acc.length)).2.1).length < L := by
        rcases Decidable.em ((ops.read s (L - acc.length)).2.2.isSome = true) with hs | hs
        · exact absurd (Or.inl hs) hcont
        · have := fun h => hcont (Or.inr h)
          omega
      have hreq : 1 ≤ L - acc.length := by
        simp only [List.length_append] at hlen
        omega
      have hchunk : 1 ≤ (ops.read s (L - acc.length)).2.1.length := by
        rcases hp s (L - acc.length) hreq with h1 | h1
        · exact h1
        · exfalso
          exact hcont (Or.inl (Option.ne_none_iff_isSome.mp h1))
      exact ih _ _ _
        (by simp only [List.length_append]; omega)
        (by simp only [List.length_append]; omega)
        herr

theorem readAt_eq_seek_err {σ : Type} (ops : StreamOps σ) (b : BufferedReader σ)
    (L : Nat) (off : Int) (s' : σ) (o : Int) (e : GoError) (hne : off ≠ b.cur)
    (hs : ops.seek b.s off = (s', o, some e)) :
    b.readAt ops L off = (⟨s', b.cur⟩, [], some e) := by
  unfold BufferedReader.readAt
  rw [if_pos hne, hs]

theorem readAt_eq_seek_ok {σ : Type} (ops : StreamOps σ) (b : BufferedReader σ)
    (L : Nat) (off : Int) (s' : σ) (o : Int) (hne : off ≠ b.cur)
    (hs : ops.seek b.s off = (s', o, none)) :
    b.readAt ops L off =
      (⟨(readLoop ops (L + 1) s' L []).1,
        o + (readLoop ops (L + 1) s' L []).2.1.length⟩,
       (readLoop ops (L + 1) s' L []).2.1, (readLoop ops (L + 1) s' L []).2.2) := by
  unfold BufferedReader.readAt
  rw [if_pos hne, hs]

theorem readAt_eq_noseek {σ : Type} (ops : StreamOps σ) (b : BufferedReader σ)
    (L : Nat) (off : Int) (heq : off = b.cur) :
    b.readAt ops L off =
      (⟨(readLoop ops (L + 1) b.s L []).1,
        b.cur + (readLoop ops (L + 1) b.s L []).2.1.length⟩,
       (readLoop ops (L + 1) b.s L []).2.1, (readLoop ops (L + 1) b.s L []).2.2) := by
  unfold BufferedReader.readAt
  rw [if_neg (by simp [heq])]

theorem readAt_len_le {σ : Type} (ops : StreamOps σ) (b : BufferedReader σ) (L : Nat)
    (off : Int) (hc : ∀ s k, (ops.read s k).2.1.length ≤ k) :
    (b.readAt ops L off).2.1.length ≤ L := by
  by_cases hne : off = b.cur
  · rw [readAt_eq_noseek ops b L off hne]
    exact readLoop_len_le ops hc (L + 1) _ L [] (by simp)
  · rcases hs : ops.seek b.s off with ⟨s', o, oe⟩
    cases oe with
    | none =>
      rw [readAt_eq_seek_ok ops b L off s' o hne hs]
      exact readLoop_len_le ops hc (L + 1) _ L [] (by simp)
    | some e =>
      rw [readAt_eq_seek_err ops b L off s' o e hne hs]
      simp

/-- C9: `BufferedReader.ReadAt` behaviour.  If the requested offset differs
from the cursor and the seek fails, the call returns no bytes and the seek
error, with the cursor unchanged.  If the seek succeeds, the new cursor is
the seek result advanced by the number of bytes read; if no seek was needed
the cursor advances from its old value.  At most `L` bytes are returned, and
when the final error is `none` the buffer was filled completely.
(Hypotheses: the stream honours the read contract — at most the requested
number of bytes per read — and makes progress, delivering a byte or an
error; without progress the Go loop does not terminate.) -/
theorem bufferedReader_readAt_spec {σ : Type} (ops : StreamOps σ) (b : BufferedReader σ)
    (L : Nat) (off : Int)
    (hc : ∀ s k, (ops.read s k).2.1.length ≤ k)
    (hp : ∀ s k, 1 ≤ k → 1 ≤ (ops.read s k).2.1.length ∨ (ops.read s k).2.2 ≠ none) :
    (∀ s' o e, off ≠ b.cur → ops.seek b.s off = (s', o, some e) →
      b.readAt ops L off = (⟨s', b.cur⟩, [], some e)) ∧
    (∀ s' o, off ≠ b.cur → ops.seek b.s off = (s', o, none) →
      (b.readAt ops L off).1.cur = o + (b.readAt ops L off).2.1.length) ∧
    (off = b.cur →
      (b.readAt ops L off).1.cur = b.cur + (b.readAt ops L off).2.1.length) ∧
    (b.readAt ops L off).2.1.length ≤ L ∧
    ((b.readAt ops L off).2.2 = none → (b.readAt ops L off).2.1.length = L) := by
  refine ⟨?_, ?_, ?_, readAt_len_le ops b L off hc, ?_⟩
  · intro s' o e hne hs
    exact readAt_eq_seek_err ops b L off s' o e hne hs
  · intro s' o hne hs
    rw [readAt_eq_seek_ok ops b L off s' o hne hs]
  · intro heq
    rw [readAt_eq_noseek ops b L off heq]
  · intro herr
    by_cases hne : off = b.cur
    · rw [readAt_eq_noseek ops b L off hne] at herr ⊢
      exact readLoop_err_none ops hc hp (L + 1) _ L [] (by simp) (by simp) herr
    · rcases hs : ops.seek b.s off with ⟨s', o, oe⟩
      cases oe with
      | none =>
        rw [readAt_eq_seek_ok ops b L off s' o hne hs] at herr ⊢
        exact readLoop_err_none ops hc hp (L + 1) _ L [] (by simp) (by simp) herr
      | some e =>
        rw [readAt_eq_seek_err ops b L off s' o e hne hs] at herr
        simp at herr

theorem natStream_contract : ∀ (s : List Nat) (k : Nat),
    (natStream.read s k).2.1.length ≤ k := by
  intro s k
  by_cases h : s = [] <;> simp [natStream, h]

theorem natStream_progress : ∀ (s : List Nat) (k : Nat), 1 ≤ k →
    1 ≤ (natStream.read s k).2.1.length ∨ (natStream.read s k).2.2 ≠ none := by
  intro s k hk
  by_cases h : s = []
  · right
    simp [natStream, h]
  · left
    have hl : 0 < s.length := List.length_pos.mpr h
    simp only [natStream, if_neg h, List.length_take]
    omega

theorem bufferedReader_readAt_spec_witness :
    (BufferedReader.readAt natStream ⟨[97, 98, 99], 0⟩ 2 0).1.cur =
      0 + ((BufferedReader.readAt natStream ⟨[97, 98, 99], 0⟩ 2 0)).2.1.length :=
  (bufferedReader_readAt_spec natStream ⟨[97, 98, 99], 0⟩ 2 0 natStream_contract
    natStream_progress).2.2.1 rfl

theorem writeErrCodeBytes_eq (id code : Nat) (h : code < 256) :
    writeErrCodeBytes id code =
      [0, 0, 0, 17, ssh_FXP_STATUS] ++ be32 id ++ [0, 0, 0, code] ++ (be32 0 ++ be32 0) := by
  unfold writeErrCodeBytes patchBE32 failTmpl
  simp [be32, List.set, Nat.mod_eq_of_lt h]

/-- C8: `writeErr` maps the backend error to the status code exactly as
nil → OK(0), end-of-stream → EOF(1), not-exist class → NO_SUCH_FILE(2),
not-permitted class → PERMISSION_DENIED(3), anything else → FAILURE(4); and
every STATUS response it emits carries a zero-length message and a
zero-length language tag after the code. -/
theorem writeErr_spec :
    errCode none = 0 ∧
    errCode (some GoError.ioEOF) = 1 ∧
    (∀ e, isNotExist e = true → errCode (some e) = 2) ∧
    (∀ e, isPermission e = true → errCode (some e) = 3) ∧
    (∀ e, e ≠ GoError.ioEOF → isPermission e = false → isNotExist e = false →
      errCode (some e) = 4) ∧
    (∀ id e, writeErrBytes id e =
      [0, 0, 0, 17, ssh_FXP_STATUS] ++ be32 id ++ [0, 0, 0, errCode e] ++
        (be32 0 ++ be32 0)) := by
  refine ⟨rfl, rfl, ?_, ?_, ?_, ?_⟩
  · intro e h
    cases e <;> simp_all [errCode, isPermission, isNotExist, ssh_FX_NO_SUCH_FILE]
  · intro e h
    cases e <;> simp_all [errCode, isPermission, isNotExist, ssh_FX_PERMISSION_DENIED]
  · intro e h1 h2 h3
    cases e <;> simp_all [errCode, isPermission, isNotExist, ssh_FX_FAILURE, ssh_FX_EOF]
  · intro id e
    have hcode : errCode e < 256 := by
      rcases e with _ | e
      · simp [errCode, ssh_FX_OK]
      · cases e <;>
          simp [errCode, isPermission, isNotExist, ssh_FX_EOF, ssh_FX_PERMISSION_DENIED,
            ssh_FX_NO_SUCH_FILE, ssh_FX_FAILURE]
    exact writeErrCodeBytes_eq id (errCode e) hcode

theorem stepChannel_open {σ δ : Type} (fs : FSModel σ δ) (st : ChanState σ δ)
    (body : List Nat) : stepChannel fs st ssh_FXP_OPEN body = openStep st body := rfl

theorem stepChannel_close {σ δ : Type} (fs : FSModel σ δ) (st : ChanState σ δ)
    (body : List Nat) : stepChannel fs st ssh_FXP_CLOSE body = closeStep st body := rfl

theorem stepChannel_read {σ δ : Type} (fs : FSModel σ δ) (st : ChanState σ δ)
    (body : List Nat) : stepChannel fs st ssh_FXP_READ body = readStep fs st body := rfl

theorem stepChannel_fstat {σ δ : Type} (fs : FSModel σ δ) (st : ChanState σ δ)
    (body : List Nat) : stepChannel fs st ssh_FXP_FSTAT body = fstatStep fs st body := rfl

theorem stepChannel_symlink {σ δ : Type} (fs : FSModel σ δ) (st : ChanState σ δ)
    (body : List Nat) :
    stepChannel fs st ssh_FXP_SYMLINK body =
      .out [writeErrCodeBytes st.lastId ssh_FX_OP_UNSUPPORTED] st [] := rfl

/-- C1 (code evaluated at the failing input): after a CLOSE with id=5, a
SYMLINK request carrying id=9 is answered with a STATUS whose id field is 5
— the loop-carried id of the *previous* request — because the SYMLINK case
never parses its body.  The response id does not equal the id carried in
the SYMLINK request. -/
theorem symlink_stale_id :
    stepChannel unitFS ⟨Handles.init (List Nat) Unit, 0⟩ ssh_FXP_CLOSE cxCloseBody =
      StepRes.out [writeErrBytes 5 none] ⟨Handles.init (List Nat) Unit, 5⟩ [] ∧
    stepChannel unitFS ⟨Handles.init (List Nat) Unit, 5⟩ ssh_FXP_SYMLINK cxSymBody =
      StepRes.out [writeErrCodeBytes 5 ssh_FX_OP_UNSUPPORTED]
        ⟨Handles.init (List Nat) Unit, 5⟩ [] ∧
    respId (writeErrCodeBytes 5 ssh_FX_OP_UNSUPPORTED) = 5 ∧
    (pB32 cxSymBody).map Prod.fst = some 9 ∧
    (5 : Nat) ≠ 9 :=
  ⟨rfl, rfl, rfl, rfl, by decide⟩

/-- C10: `closeHandle` is a no-op on the handle table when the key is empty
or its first character is neither 'f' (102) nor 'd' (100) — all five keyed
collections and the counter are unchanged — while the dispatcher's CLOSE
case still answers STATUS OK for whatever handle string the client sent. -/
theorem closeHandle_frame_spec {σ δ : Type} (fs : FSModel σ δ) (st : ChanState σ δ)
    (h : Handles σ δ) (k : HStr) (body : List Nat) (id : Nat) (handle : HStr)
    (hk : k = [] ∨ ∃ c tl, k = c :: tl ∧ c ≠ 102 ∧ c ≠ 100)
    (hparse : parseIdStringReq body = some (id, handle)) :
    h.closeHandle k = h ∧
    stepChannel fs st ssh_FXP_CLOSE body =
      StepRes.out [writeErrBytes id none] ⟨st.h.closeHandle handle, id⟩ [] ∧
    errCode none = ssh_FX_OK := by
  refine ⟨?_, ?_, rfl⟩
  · rcases hk with hk | ⟨c, tl, hk, hc1, hc2⟩
    · rw [hk]
      rfl
    · rw [hk]
      unfold Handles.closeHandle
      simp [hc1, hc2]
  · rw [stepChannel_close]
    unfold closeStep
    rw [hparse]

theorem closeHandle_frame_spec_witness :
    (Handles.init (List Nat) Unit).closeHandle [120] = Handles.init (List Nat) Unit ∧
    stepChannel unitFS ⟨Handles.init (List Nat) Unit, 0⟩ ssh_FXP_CLOSE wCloseBody =
      StepRes.out [writeErrBytes 7 none]
        ⟨(Handles.init (List Nat) Unit).closeHandle [122], 7⟩ [] ∧
    errCode none = ssh_FX_OK :=
  closeHandle_frame_spec unitFS ⟨Handles.init (List Nat) Unit, 0⟩
    (Handles.init (List Nat) Unit) [120] wCloseBody 7 [122]
    (Or.inr ⟨120, [], rfl, by decide, by decide⟩) rfl

/-- C3: when the handle table already holds `maxFiles` = 256 live file
handles, an OPEN is answered with a non-fatal STATUS FAILURE for the
request id, the handle table (all collections and the counter) is left
untouched, and no backend call is made; below the limit OPEN always answers
a HANDLE response, again without calling the backend. -/
theorem open_limit_spec {σ δ : Type} (fs : FSModel σ δ) (st : ChanState σ δ)
    (body : List Nat) (id : Nat) (path : HStr) (flags : Nat) (a : Attr)
    (hparse : parseOpenReq body = some (id, path, flags, a)) :
    (st.h.nfiles ≥ maxFiles →
      stepChannel fs st ssh_FXP_OPEN body =
        StepRes.out [writeErrBytes id (some GoError.tooManyFiles)]
          ⟨st.h, id⟩ [] ∧
      errCode (some GoError.tooManyFiles) = ssh_FX_FAILURE) ∧
    (st.h.nfiles < maxFiles →
      stepChannel fs st ssh_FXP_OPEN body =
        StepRes.out [writeHandleBytes id (st.h.newFile ⟨path, flags, a⟩).2]
          ⟨(st.h.newFile ⟨path, flags, a⟩).1, id⟩ []) := by
  constructor
  · intro hge
    refine ⟨?_, rfl⟩
    rw [stepChannel_open]
    unfold openStep
    rw [hparse]
    simp only [hge, ge_iff_le, if_pos]
  · intro hlt
    rw [stepChannel_open]
    unfold openStep
    rw [hparse]
    dsimp only
    rw [if_neg (by omega)]

theorem open_limit_spec_witness :
    (stepChannel unitFS ⟨full256, 0⟩ ssh_FXP_OPEN wOpenBody =
      StepRes.out [writeErrBytes 7 (some GoError.tooManyFiles)] ⟨full256, 7⟩ []) ∧
    (stepChannel unitFS ⟨Handles.init (List Nat) Unit, 0⟩ ssh_FXP_OPEN wOpenBody =
      StepRes.out
        [writeHandleBytes 7
          ((Handles.init (List Nat) Unit).newFile ⟨[47, 97], 1, Attr.zero⟩).2]
        ⟨((Handles.init (List Nat) Unit).newFile ⟨[47, 97], 1, Attr.zero⟩).1, 7⟩ []) :=
  ⟨((open_limit_spec unitFS ⟨full256, 0⟩ wOpenBody 7 [47, 97] 1 Attr.zero rfl).1
      (by simp [full256, Handles.nfiles, maxFiles])).1,
   (open_limit_spec unitFS ⟨Handles.init (List Nat) Unit, 0⟩ wOpenBody 7 [47, 97] 1
      Attr.zero rfl).2 (by simp [Handles.init, Handles.nfiles, maxFiles])⟩

/-- C2 (amended): FSTAT parses id and handle (a parse failure is fatal to
the channel); a missing handle is fatal; otherwise the backend stat is
called on the stored path of the open file with `islstat = false` — i.e.
following symbolic links — and the response is the ATTRS packet on success
or a STATUS error on failure, for the request id. -/
theorem fstat_spec {σ δ : Type} (fs : FSModel σ δ) (st : ChanState σ δ)
    (body : List Nat) :
    (parseIdStringReq body = none →
      stepChannel fs st ssh_FXP_FSTAT body = StepRes.fatal GoError.generic []) ∧
    (∀ id handle, parseIdStringReq body = some (id, handle) →
      (st.h.getFile handle = none →
        stepChannel fs st ssh_FXP_FSTAT body = StepRes.fatal GoError.invalidHandle []) ∧
      (∀ f, st.h.getFile handle = some f →
        stepChannel fs st ssh_FXP_FSTAT body =
          StepRes.out [writeAttrOrErr id (fs.stat f.name false)] ⟨st.h, id⟩
            [BackendCall.statCall f.name false])) ∧
    (∀ id a, writeAttrOrErr id (Sum.inl a) = writeAttrBytes id a) ∧
    (∀ id e, writeAttrOrErr id (Sum.inr e) = writeErrBytes id (some e)) := by
  refine ⟨?_, ?_, fun id a => rfl, fun id e => rfl⟩
  · intro hp
    rw [stepChannel_fstat]
    unfold fstatStep
    rw [hp]
  · intro id handle hp
    constructor
    · intro hf
      rw [stepChannel_fstat]
      unfold fstatStep
      rw [hp]
      dsimp only
      rw [hf]
    · intro f hf
      rw [stepChannel_fstat]
      unfold fstatStep
      rw [hp]
      dsimp only
      rw [hf]

/-- C2 (counterexample): at a concrete FSTAT request for an open handle the
backend stat trace carries `islstat = false`, which differs from the
claim's `islstat = true` (follow-symlinks flag false). -/
theorem fstat_islstat_cx :
    stepChannel unitFS ⟨fstatStateH, 0⟩ ssh_FXP_FSTAT wFstatBody =
      StepRes.out [writeAttrOrErr 3 (unitFS.stat [97] false)] ⟨fstatStateH, 3⟩
        [BackendCall.statCall [97] false] ∧
    BackendCall.statCall ([97] : HStr) false ≠ BackendCall.statCall ([97] : HStr) true :=
  ⟨rfl, by decide⟩

theorem fstat_spec_witness :
    stepChannel unitFS ⟨fstatStateH, 0⟩ ssh_FXP_FSTAT wFstatBody =
      StepRes.out [writeAttrOrErr 3 (unitFS.stat [97] false)] ⟨fstatStateH, 3⟩
        [BackendCall.statCall [97] false] :=
  ((fstat_spec unitFS ⟨fstatStateH, 0⟩ wFstatBody).2.1 3 [102, 49] rfl).2
    ⟨[97], 0, Attr.zero⟩ rfl

theorem readResolve_len_le {σ δ : Type} (fs : FSModel σ δ) (h : Handles σ δ)
    (f : FileOpenArgs) (handle : HStr) (offset L : Nat)
    (hc : ∀ s k, (fs.ops.read s k).2.1.length ≤ k) :
    (readResolve fs h f handle offset L).2.1.length ≤ L := by
  unfold readResolve
  split
  · exact readAt_len_le fs.ops _ L _ hc
  · split
    · split
      · exact readAt_len_le fs.ops _ L _ hc
      · simp
    · split
      · split
        · split
          · simp
          · exact readAt_len_le fs.ops _ L _ hc
        · exact readAt_len_le fs.ops _ L _ hc
      · simp

theorem writeDataBytes_drop (id : Nat) (payload : List Nat) :
    (writeDataBytes id payload).drop 13 = payload := by
  simp [writeDataBytes, pOut, Printer.b32, Printer.byte, be32]

theorem writeErrBytes_drop (id : Nat) (e : Option GoError) :
    ((writeErrBytes id e).drop 13).length = 8 := by
  unfold writeErrBytes writeErrCodeBytes patchBE32 failTmpl
  simp [be32, List.set]

/-- C5: the READ case clamps the requested length to 64 KiB before the data
buffer is allocated, so — given the io.Reader contract that a read delivers
at most the requested number of bytes — the bytes read never exceed 65536
and the payload carried after the 13-byte DATA header of any response the
READ case emits never exceeds 65536 bytes, regardless of the length the
client requested. -/
theorem read_payload_bounded {σ δ : Type} (fs : FSModel σ δ) (st : ChanState σ δ)
    (body : List Nat) (id : Nat) (handle : HStr) (offset length : Nat)
    (f : FileOpenArgs)
    (hparse : parseReadReq body = some (id, handle, offset, length))
    (hf : st.h.getFile handle = some f)
    (hc : ∀ s k, (fs.ops.read s k).2.1.length ≤ k) :
    ((if length > 64 * 1024 then 64 * 1024 else length) ≤ 65536) ∧
    (readResolve fs st.h f handle offset
      (if length > 64 * 1024 then 64 * 1024 else length)).2.1.length ≤ 65536 ∧
    (∀ resps st2 calls, stepChannel fs st ssh_FXP_READ body = StepRes.out resps st2 calls →
      ∀ resp ∈ resps, (resp.drop 13).length ≤ 65536) := by
  have hclamp : (if length > 64 * 1024 then 64 * 1024 else length) ≤ 65536 := by
    split <;> omega
  refine ⟨hclamp, le_trans (readResolve_len_le fs st.h f handle offset _ hc) hclamp, ?_⟩
  intro resps st2 calls hstep resp hresp
  rw [stepChannel_read] at hstep
  unfold readStep at hstep
  rw [hparse] at hstep
  dsimp only at hstep
  rw [hf] at hstep
  dsimp only at hstep
  split at hstep
  · simp only [StepRes.out.injEq] at hstep
    obtain ⟨h1, h2, h3⟩ := hstep
    rw [← h1] at hresp
    simp only [List.mem_singleton] at hresp
    rw [hresp, writeDataBytes_drop]
    exact le_trans (readResolve_len_le fs st.h f handle offset _ hc) hclamp
  · simp only [StepRes.out.injEq] at hstep
    obtain ⟨h1, h2, h3⟩ := hstep
    rw [← h1] at hresp
    simp only [List.mem_singleton] at hresp
    rw [hresp]
    rw [writeErrBytes_drop]
    omega

theorem read_payload_bounded_witness :
    (readResolve unitFS fstatStateH ⟨[97], 0, Attr.zero⟩ [102, 49] 0
      (if 100000 > 64 * 1024 then 64 * 1024 else 100000)).2.1.length ≤ 65536 :=
  (read_payload_bounded unitFS ⟨fstatStateH, 0⟩ wReadBody 4 [102, 49] 0 100000
    ⟨[97], 0, Attr.zero⟩ rfl rfl natStream_contract).2.1

/-- C6: for a READ whose reader resolution returns end-of-stream together
with the bytes it delivered, the dispatcher converts the error to success
when at least one byte arrived — answering a DATA response carrying exactly
those bytes — and answers a STATUS with code EOF (1) when zero bytes
arrived. -/
theorem read_eof_with_data {σ δ : Type} (fs : FSModel σ δ) (st : ChanState σ δ)
    (body : List Nat) (id : Nat) (handle : HStr) (offset length : Nat)
    (f : FileOpenArgs)
    (hparse : parseReadReq body = some (id, handle, offset, length))
    (hf : st.h.getFile handle = some f) :
    ∀ h2 bytes calls,
      readResolve fs st.h f handle offset
          (if length > 64 * 1024 then 64 * 1024 else length) =
        (h2, bytes, some GoError.ioEOF, calls) →
      (bytes.length > 0 →
        stepChannel fs st ssh_FXP_READ body =
          StepRes.out [writeDataBytes id bytes] ⟨h2, id⟩ calls ∧
        (writeDataBytes id bytes).drop 13 = bytes) ∧
      (bytes.length = 0 →
        stepChannel fs st ssh_FXP_READ body =
          StepRes.out [writeErrBytes id (some GoError.ioEOF)] ⟨h2, id⟩ calls ∧
        errCode (some GoError.ioEOF) = ssh_FX_EOF) := by
  intro h2 bytes calls hres
  constructor
  · intro hlen
    refine ⟨?_, writeDataBytes_drop id bytes⟩
    rw [stepChannel_read]
    unfold readStep
    rw [hparse]
    dsimp only
    rw [hf]
    dsimp only
    rw [hres]
    dsimp only
    rw [if_pos ⟨rfl, hlen⟩]
  · intro hlen
    refine ⟨?_, rfl⟩
    rw [stepChannel_read]
    unfold readStep
    rw [hparse]
    dsimp only
    rw [hf]
    dsimp only
    rw [hres]
    dsimp only
    rw [if_neg (by simp [hlen])]

theorem read_eof_with_data_witness :
    (stepChannel unitFS ⟨readStateH, 0⟩ ssh_FXP_READ wReadBody2 =
      StepRes.out [writeDataBytes 4 [97, 98, 99]] ⟨readStateH2, 4⟩ [] ∧
      (writeDataBytes 4 [97, 98, 99]).drop 13 = [97, 98, 99]) ∧
    (stepChannel unitFS ⟨readStateH0, 0⟩ ssh_FXP_READ wReadBody2 =
      StepRes.out [writeErrBytes 4 (some GoError.ioEOF)] ⟨readStateH0, 4⟩ [] ∧
      errCode (some GoError.ioEOF) = ssh_FX_EOF) :=
  ⟨(read_eof_with_data unitFS ⟨readStateH, 0⟩ wReadBody2 4 [102, 49] 0 10
      ⟨[97], 0, Attr.zero⟩ rfl rfl readStateH2 [97, 98, 99] [] rfl).1 (by decide),
   (read_eof_with_data unitFS ⟨readStateH0, 0⟩ wReadBody2 4 [102, 49] 0 10
      ⟨[97], 0, Attr.zero⟩ rfl rfl readStateH0 [] [] rfl).2 rfl⟩

theorem writeErr_spec_witness :
    errCode (some GoError.errNotExist) = 2 ∧
    errCode (some GoError.errPermission) = 3 ∧
    errCode (some GoError.generic) = 4 ∧
    writeErrBytes 5 none =
      [0, 0, 0, 17, ssh_FXP_STATUS] ++ be32 5 ++ [0, 0, 0, errCode none] ++
        (be32 0 ++ be32 0) :=
  ⟨writeErr_spec.2.2.1 GoError.errNotExist rfl,
   writeErr_spec.2.2.2.1 GoError.errPermission rfl,
   writeErr_spec.2.2.2.2.1 GoError.generic (by decide) rfl rfl,
   writeErr_spec.2.2.2.2.2 5 none⟩
